import Mathlib

/-!
# Verification of `run-map-update.py` (aura-affinity)

A shallow embedding of the pure core of the script: keyword translation and
search-term assembly, paginated place search, place-detail processing and
record assembly, deduplication by place identifier, sequential id
assignment, the locklist override merge, and the control flow of `main`
(early exits and the run-completion timestamp).  External HTTP calls are
modelled as oracles passed in as parameters; an exception caught by the
script is modelled by the oracle returning the caught-case value, and an
exception that the script does not catch is modelled by `Except.error`.
-/

namespace AuraAffinity

/-- Character-by-character lowercasing (Python `str.lower` on the ASCII
range that the keyword tables use). -/
def lowerStr (s : String) : String := ⟨s.data.map Char.toLower⟩

/-- `containsSub pat l` decides whether `pat` occurs as a contiguous run
inside `l`; the empty pattern occurs in every list. -/
def containsSub (pat : List Char) : List Char → Bool
  | [] => pat.isEmpty
  | c :: rest => pat.isPrefixOf (c :: rest) || containsSub pat rest

/-- Python's substring test `pat in s`. -/
def strIn (pat s : String) : Bool := containsSub pat.data s.data

/-- Keywords of the `Accommodation` rule (source line 139). -/
def accommodationKws : List String :=
  ["hotel", "resort", "apartments", "accommodation", "villa", "guesthouse",
   "lodging", "inn", "suites"]

/-- Keywords of the `Health & Wellbeing` rule (source line 141). -/
def healthKws : List String :=
  ["spa", "health", "clinic", "wellness", "yoga", "beauty", "salon",
   "therapies"]

/-- Keywords of the `Creative Industries` rule (source line 143). -/
def creativeKws : List String :=
  ["design", "studio", "gallery", "art", "media", "productions", "creative",
   "photography", "fashion"]

/-- Keywords of the `Event Management` rule (source line 145). -/
def eventKws : List String :=
  ["events", "planning", "entertainment", "lounge", "nightclub"]

/-- Keywords of the `Cities & Developments` rule (source line 147). -/
def citiesKws : List String :=
  ["real estate", "properties", "developments", "condominium", "building",
   "display village"]

/-- Keywords of the `Blockchain` rule (source line 149). -/
def blockchainKws : List String := ["blockchain", "crypto", "web3"]

/-- The fixed if-chain of keyword rules from `assign_category`
(source lines 139-151), over the already-built text blob. -/
def categoryChain (full_text : String) : String :=
  if accommodationKws.any (fun kw => strIn kw full_text) then "Accommodation"
  else if healthKws.any (fun kw => strIn kw full_text) then "Health & Wellbeing"
  else if creativeKws.any (fun kw => strIn kw full_text) then "Creative Industries"
  else if eventKws.any (fun kw => strIn kw full_text) then "Event Management"
  else if citiesKws.any (fun kw => strIn kw full_text) then "Cities & Developments"
  else if blockchainKws.any (fun kw => strIn kw full_text) then "Blockchain"
  else "Other"

/-- The text blob the categorizer matches against (source lines 136-138):
lowercased name, one space, lowercased space-joined type tags. -/
def fullCategoryText (types : List String) (name : String) : String :=
  lowerStr name ++ " " ++ lowerStr (String.intercalate " " types)

/-- `assign_category(types, name)` from the source (lines 134-151):
lowercase the name, lowercase the space-joined type tags, concatenate with
a single space, then walk the fixed if-chain of keyword rules. -/
def assign_category (types : List String) (name : String) : String :=
  categoryChain (fullCategoryText types name)

/-- The categorizer's rules as an ordered `(label, keywords)` list, in the
source's top-down order. -/
def categoryRules : List (String × List String) :=
  [("Accommodation", accommodationKws),
   ("Health & Wellbeing", healthKws),
   ("Creative Industries", creativeKws),
   ("Event Management", eventKws),
   ("Cities & Developments", citiesKws),
   ("Blockchain", blockchainKws)]

/-- First-match-wins evaluation of an ordered rule list, defaulting to
`"Other"` when no rule matches. -/
def firstMatchingLabel (rules : List (String × List String)) (text : String) :
    String :=
  match rules.find? (fun r => r.2.any (fun kw => strIn kw text)) with
  | some r => r.1
  | none => "Other"

/-- The seven labels the categorizer can produce. -/
def categoryLabels : List String :=
  ["Accommodation", "Health & Wellbeing", "Creative Industries",
   "Event Management", "Cities & Developments", "Blockchain", "Other"]

lemma categoryChain_mem (t : String) : categoryChain t ∈ categoryLabels := by
  unfold categoryChain categoryLabels
  cases accommodationKws.any (fun kw => strIn kw t) <;>
  cases healthKws.any (fun kw => strIn kw t) <;>
  cases creativeKws.any (fun kw => strIn kw t) <;>
  cases eventKws.any (fun kw => strIn kw t) <;>
  cases citiesKws.any (fun kw => strIn kw t) <;>
  cases blockchainKws.any (fun kw => strIn kw t) <;>
    simp

lemma categoryChain_eq_find (t : String) :
    categoryChain t = firstMatchingLabel categoryRules t := by
  unfold categoryChain firstMatchingLabel categoryRules
  cases h1 : accommodationKws.any (fun kw => strIn kw t) <;>
  cases h2 : healthKws.any (fun kw => strIn kw t) <;>
  cases h3 : creativeKws.any (fun kw => strIn kw t) <;>
  cases h4 : eventKws.any (fun kw => strIn kw t) <;>
  cases h5 : citiesKws.any (fun kw => strIn kw t) <;>
  cases h6 : blockchainKws.any (fun kw => strIn kw t) <;>
    simp [List.find?, h1, h2, h3, h4, h5, h6]

/-- C1: `assign_category` is a pure, deterministic function; on every set of
type tags and every name it returns one of the seven fixed labels; it is
exactly the top-down, first-match-wins evaluation of the ordered rule list
(Accommodation, Health & Wellbeing, Creative Industries, Event Management,
Cities & Developments, Blockchain, else "Other"); and on
`types = {"lodging"}`, `name = "Aura Design Hotel"` it returns
`"Accommodation"`. -/
theorem assign_category_spec :
    (∀ types name, assign_category types name ∈ categoryLabels) ∧
    (∀ types name,
      assign_category types name =
        firstMatchingLabel categoryRules (fullCategoryText types name)) ∧
    assign_category ["lodging"] "Aura Design Hotel" = "Accommodation" :=
  ⟨fun types name => categoryChain_mem (fullCategoryText types name),
   fun types name => categoryChain_eq_find (fullCategoryText types name),
   by decide⟩

/-- Base search keywords (source line 20). -/
def SEARCH_KEYWORDS : List String := ["Aura", "Chakra"]

/-- `translate_keywords(keywords, target_language)` (source lines 44-53),
with the batch-translate HTTP call abstracted as the oracle `tr`:
`Except.error` models the call raising, which the source catches and turns
into the empty list; the `"en"` target skips the call entirely. -/
def translate_keywords (tr : List String → Except String (List String))
    (keywords : List String) (target_language : String) : List String :=
  if target_language = "en" then []
  else
    match tr keywords with
    | Except.ok results => results
    | Except.error _ => []

/-- The collection of search terms one location is queried with (source
lines 77-82): base keywords plus translated keywords, deduplicated by
Python's `set()`.  A Lean list stands in for the set; only membership and
multiplicity are meaningful, since Python set iteration order is
unspecified. -/
def searchTermSet (translated_kws : List String) : List String :=
  (SEARCH_KEYWORDS ++ translated_kws).dedup

/-- A raw place in a search response; only its identifier is used
downstream. -/
structure RawPlace where
  place_id : Option String
deriving DecidableEq

/-- One page of the text-search response: its result list and the optional
`next_page_token`. -/
structure SearchPage where
  results : List RawPlace
  next_page_token : Option String
deriving DecidableEq

/-- The pagination loop of `search_places` for one keyword term (source
lines 88-103), driven by the successive responses the API gives: `none`
models a `RequestException` (caught: the loop breaks, keeping the places
gathered on earlier pages); a page without a token ends the loop.  Returns
the places gathered for this term and the number of HTTP requests issued.
The loop stops consuming the response stream exactly at the first error or
token-less page. -/
def paginate : List (Option SearchPage) → List RawPlace × Nat
  | [] => ([], 0)
  | none :: _ => ([], 1)
  | some page :: rest =>
    match page.next_page_token with
    | none => (page.results, 1)
    | some _ =>
      let r := paginate rest
      (page.results ++ r.1, r.2 + 1)

/-- One review in a place-details response; only its `text` field is read. -/
structure Review where
  text : Option String
deriving DecidableEq

/-- One entry of the `address_components` list of a details response. -/
structure AddressComponent where
  types : List String
  long_name : String
deriving DecidableEq

/-- A place-details response: the fields requested on source line 113 that
the script reads, with `none` modelling an absent key.  `reviews = none`
models the `reviews` key being absent; `reviews = some []` models it being
present and empty.  `Int` stands in for the JSON coordinate numbers, whose
arithmetic the script never uses. -/
structure Details where
  place_id : Option String
  name : Option String
  lat : Option Int
  lng : Option Int
  website : Option String
  international_phone_number : Option String
  types : List String
  address_components : List AddressComponent
  reviews : Option (List Review)
deriving DecidableEq

/-- `get_city_country_from_components` (source lines 124-132): walk the
component list, remembering the last component tagged `locality` as the
city and the last tagged `country` as the country, both defaulting to
the empty string. -/
def get_city_country_from_components (comps : List AddressComponent) :
    String × String :=
  comps.foldl
    (fun acc component =>
      (if "locality" ∈ component.types then component.long_name else acc.1,
       if "country" ∈ component.types then component.long_name else acc.2))
    ("", "")

/-- `details.get('reviews', [{}])[0].get('text', '')` (source line 173).
The default `[ {} ]` applies only when the `reviews` key is absent; when
the key is present but the list is empty, indexing `[0]` raises
`IndexError`, modelled by `none`. -/
def firstReviewText (reviews : Option (List Review)) : Option String :=
  match (reviews.getD [{ text := none }]).head? with
  | none => none
  | some r => some (r.text.getD "")

/-- A business record as assembled by `main`'s loop (source lines
175-188). -/
structure Business where
  place_id : Option String
  name : Option String
  category : String
  city : String
  country : String
  latitude : Option Int
  longitude : Option Int
  website : String
  phone : String
  email : String
  social : String
  description : String
  verified : Bool
deriving DecidableEq

/-- Assembly of one business dict from a non-empty details response
(source lines 170-188); `Except.error` models the uncaught `IndexError`
raised by the review extraction when the response's review list is present
but empty. -/
def buildBusiness (details : Details) : Except String Business :=
  match firstReviewText details.reviews with
  | none => Except.error "IndexError: list index out of range"
  | some first_review =>
    Except.ok
      { place_id := details.place_id
        name := details.name
        category := assign_category details.types (details.name.getD "")
        city := (get_city_country_from_components details.address_components).1
        country := (get_city_country_from_components details.address_components).2
        latitude := details.lat
        longitude := details.lng
        website := details.website.getD ""
        phone := details.international_phone_number.getD ""
        email := ""
        social := ""
        description := first_review
        verified := false }

/-- `df.drop_duplicates(subset='place_id')` with the default `keep='first'`
(source line 197), as a single pass with the set of identifiers already
seen: the first record with a given identifier is kept, later ones are
dropped.  Two null identifiers count as duplicates of each other, as in
pandas. -/
def dropDuplicatesBy (seen : List (Option String)) :
    List Business → List Business
  | [] => []
  | b :: rest =>
    if b.place_id ∈ seen then dropDuplicatesBy seen rest
    else b :: dropDuplicatesBy (b.place_id :: seen) rest

/-- Deduplication of the collected records by `place_id` (source line
197). -/
def dedupByPlaceId (records : List Business) : List Business :=
  dropDuplicatesBy [] records

/-- A row of the output table after id assignment: the sequential `id`
column alongside the record's columns. -/
structure IdRecord where
  id : Nat
  business : Business
deriving DecidableEq

/-- Sequential id assignment (source lines 198-199):
`df['id'] = df.index + 1` after `reset_index(drop=True)`, i.e. ids are
1-based row positions of the deduplicated frame. -/
def assignIds (records : List Business) : List IdRecord :=
  records.enum.map (fun p => { id := p.1 + 1, business := p.2 })

/-- One row of `curation/locklist.csv`, keyed by `place_id`.  `none` in a
field models an empty cell, read as NA and hence skipped by
`DataFrame.update`, which only copies non-NA values.  The locklist may
carry any subset of the output columns, including `id`. -/
structure Override where
  place_id : String
  id : Option Nat := none
  name : Option String := none
  category : Option String := none
  city : Option String := none
  country : Option String := none
  latitude : Option Int := none
  longitude : Option Int := none
  website : Option String := none
  email : Option String := none
  phone : Option String := none
  social : Option String := none
  description : Option String := none
  verified : Option Bool := none
deriving DecidableEq

/-- A present override cell replaces a nullable record cell. -/
def overrideOpt (o : Option α) (v : Option α) : Option α :=
  match o with
  | some x => some x
  | none => v

/-- A present override cell replaces a non-nullable record cell. -/
def overrideVal (o : Option α) (v : α) : α := o.getD v

/-- `df.update(locklist_df)` restricted to one output row and its matching
locklist row (source line 207): every non-NA locklist cell replaces the
corresponding cell of the row; the `place_id` itself is the index label
and is never rewritten. -/
def applyOverride (row : IdRecord) (o : Override) : IdRecord :=
  { id := overrideVal o.id row.id
    business :=
      { place_id := row.business.place_id
        name := overrideOpt o.name row.business.name
        category := overrideVal o.category row.business.category
        city := overrideVal o.city row.business.city
        country := overrideVal o.country row.business.country
        latitude := overrideOpt o.latitude row.business.latitude
        longitude := overrideOpt o.longitude row.business.longitude
        website := overrideVal o.website row.business.website
        email := overrideVal o.email row.business.email
        phone := overrideVal o.phone row.business.phone
        social := overrideVal o.social row.business.social
        description := overrideVal o.description row.business.description
        verified := overrideVal o.verified row.business.verified } }

/-- The override merge (source lines 201-208): the join is anchored on the
output rows; each row joins the locklist row whose `place_id` equals its
own, rows without a match are unchanged, and locklist rows matching no
output row have no effect. -/
def applyOverrides (rows : List IdRecord) (locklist : List Override) :
    List IdRecord :=
  rows.map (fun row =>
    match locklist.find? (fun o => decide (some o.place_id = row.business.place_id)) with
    | some o => applyOverride row o
    | none => row)

/-- The inputs `main` consumes, with every external effect abstracted as an
oracle: the API key (`none` models an unset environment variable), the city
list (empty when `curation/city-list.txt` is missing or empty), the raw
places each location's search yields, the details oracle (`none` models a
failed or empty details response, which the loop skips), and the locklist
(`none` models its `FileNotFoundError`). -/
structure MainEnv where
  api_key : Option String
  locations : List String
  placesFor : String → List RawPlace
  detailsFor : Option String → Option Details
  locklist : Option (List Override)

/-- The inner record-collection loop of `main` over the raw places of one
run (source lines 166-189): failed or empty details are skipped, and an
`IndexError` from review extraction propagates. -/
def collectPlaces (detailsFor : Option String → Option Details) :
    List RawPlace → Except String (List Business)
  | [] => Except.ok []
  | place :: rest =>
    match detailsFor place.place_id with
    | none => collectPlaces detailsFor rest
    | some details =>
      match buildBusiness details with
      | Except.error e => Except.error e
      | Except.ok b =>
        match collectPlaces detailsFor rest with
        | Except.error e => Except.error e
        | Except.ok bs => Except.ok (b :: bs)

/-- The record-collection phase of `main` (source lines 163-189): all raw
places of all locations, in order, through the detail-fetch-and-assemble
loop. -/
def collectRecords (env : MainEnv) : Except String (List Business) :=
  collectPlaces env.detailsFor
    ((env.locations.map (fun loc => env.placesFor loc)).flatten)

/-- Result of a run of `main`: whether the completion timestamp was
written, and the rows of the CSV when one was produced. -/
structure RunResult where
  timestampWritten : Bool
  csv : Option (List IdRecord)
deriving DecidableEq

/-- `main` (source lines 153-217) over abstracted inputs.  `Except.error`
models an uncaught exception escaping `main`.  The two early exits before
any work (missing key, empty location list) return without writing the
timestamp; the empty-data exit writes the timestamp and no CSV; the normal
path writes both. -/
def main (env : MainEnv) : Except String RunResult :=
  if env.api_key.getD "" = "" then
    Except.ok { timestampWritten := false, csv := none }
  else if env.locations.isEmpty then
    Except.ok { timestampWritten := false, csv := none }
  else
    match collectRecords env with
    | Except.error e => Except.error e
    | Except.ok all_business_data =>
      if all_business_data.isEmpty then
        Except.ok { timestampWritten := true, csv := none }
      else
        let merged :=
          applyOverrides (assignIds (dedupByPlaceId all_business_data))
            (env.locklist.getD [])
        Except.ok { timestampWritten := true, csv := some merged }

/-- C9: translation is skipped (empty result) when the resolved target
language is the default `"en"`; a failing translation call also yields the
empty list instead of raising; and with an empty translated set the search
proceeds with exactly the base keywords. -/
theorem translate_keywords_spec :
    (∀ tr kws, translate_keywords tr kws "en" = []) ∧
    (∀ tr kws lang e, tr kws = Except.error e →
      translate_keywords tr kws lang = []) ∧
    (∀ t, t ∈ searchTermSet [] ↔ t ∈ SEARCH_KEYWORDS) := by
  refine ⟨fun tr kws => by simp [translate_keywords], ?_, ?_⟩
  · intro tr kws lang e h
    unfold translate_keywords
    split
    · rfl
    · rw [h]
  · intro t
    simp [searchTermSet, List.mem_dedup]

/-- C9 witness: a concrete failing translation call yields `[]`. -/
theorem translate_keywords_spec_witness :
    translate_keywords (fun _ => Except.error "HTTPError") ["Aura", "Chakra"]
      "de" = [] :=
  translate_keywords_spec.2.1 (fun _ => Except.error "HTTPError")
    ["Aura", "Chakra"] "de" "HTTPError" rfl

/-- C10: search terms are deduplicated before querying: each distinct term
of base-plus-translated keywords occurs exactly once in the queried term
collection, and a term occurs at all only if it is a base or translated
keyword. -/
theorem searchTermSet_spec :
    (∀ translated_kws t,
      (searchTermSet translated_kws).count t =
        if t ∈ SEARCH_KEYWORDS ++ translated_kws then 1 else 0) ∧
    (∀ translated_kws, (searchTermSet translated_kws).Nodup) :=
  ⟨fun translated_kws t => List.count_dedup (SEARCH_KEYWORDS ++ translated_kws) t,
   fun translated_kws => List.nodup_dedup (SEARCH_KEYWORDS ++ translated_kws)⟩

/-- C5: a first page with a token followed by a second without one makes
the pagination loop issue exactly two requests and return the two pages'
results concatenated; in general, over any run of token-carrying pages
followed by a token-less page, the loop issues one request per page and
stops exactly at the token-less page, concatenating all results. -/
theorem paginate_spec :
    (∀ (p1 p2 : SearchPage) (tok : String),
      p1.next_page_token = some tok → p2.next_page_token = none →
      paginate [some p1, some p2] = (p1.results ++ p2.results, 2)) ∧
    (∀ (ps : List SearchPage) (last : SearchPage),
      (∀ q ∈ ps, q.next_page_token ≠ none) → last.next_page_token = none →
      paginate (ps.map some ++ [some last]) =
        ((ps.map (fun p => p.results)).flatten ++ last.results,
          ps.length + 1)) := by
  constructor
  · intro p1 p2 tok h1 h2
    simp [paginate, h1, h2]
  · intro ps last hps hlast
    induction ps with
    | nil => simp [paginate, hlast]
    | cons q rest ih =>
      obtain ⟨tok, htok⟩ :=
        Option.ne_none_iff_exists.mp (hps q (List.mem_cons_self q rest))
      have hrest : ∀ p ∈ rest, p.next_page_token ≠ none :=
        fun p hp => hps p (List.mem_cons_of_mem q hp)
      simp only [List.map_cons, List.cons_append, paginate, ← htok,
        List.append_eq]
      rw [ih hrest]
      simp [List.append_assoc]

/-- C5 witness: a concrete two-page run issues two requests and
concatenates the results. -/
theorem paginate_spec_witness :
    paginate [some ⟨[⟨some "a"⟩], some "tok"⟩, some ⟨[⟨some "b"⟩], none⟩] =
      ([⟨some "a"⟩, ⟨some "b"⟩], 2) :=
  paginate_spec.1 ⟨[⟨some "a"⟩], some "tok"⟩ ⟨[⟨some "b"⟩], none⟩ "tok"
    rfl rfl

lemma ddb_pid_not_seen (l : List Business) :
    ∀ (seen : List (Option String)) (pid : Option String),
      pid ∈ (dropDuplicatesBy seen l).map (fun b => b.place_id) →
      pid ∉ seen := by
  induction l with
  | nil => intro seen pid h; simp [dropDuplicatesBy] at h
  | cons b rest ih =>
    intro seen pid h
    simp only [dropDuplicatesBy] at h
    by_cases hb : b.place_id ∈ seen
    · rw [if_pos hb] at h
      exact ih seen pid h
    · rw [if_neg hb] at h
      simp only [List.map_cons, List.mem_cons] at h
      rcases h with h | h
      · subst h; exact hb
      · intro hseen
        exact ih _ pid h (List.mem_cons_of_mem _ hseen)

lemma ddb_nodup (l : List Business) :
    ∀ seen, ((dropDuplicatesBy seen l).map (fun b => b.place_id)).Nodup := by
  induction l with
  | nil => intro seen; simp [dropDuplicatesBy]
  | cons b rest ih =>
    intro seen
    simp only [dropDuplicatesBy]
    by_cases hb : b.place_id ∈ seen
    · rw [if_pos hb]; exact ih seen
    · rw [if_neg hb]
      simp only [List.map_cons, List.nodup_cons]
      exact ⟨fun hmem => ddb_pid_not_seen rest _ _ hmem
        (List.mem_cons_self _ _), ih _⟩

lemma ddb_mem_iff (l : List Business) :
    ∀ (seen : List (Option String)) (pid : Option String), pid ∉ seen →
      (pid ∈ (dropDuplicatesBy seen l).map (fun b => b.place_id) ↔
        pid ∈ l.map (fun b => b.place_id)) := by
  induction l with
  | nil => intro seen pid _; simp [dropDuplicatesBy]
  | cons b rest ih =>
    intro seen pid hpid
    simp only [dropDuplicatesBy]
    by_cases hb : b.place_id ∈ seen
    · rw [if_pos hb, ih seen pid hpid]
      simp only [List.map_cons, List.mem_cons]
      constructor
      · exact Or.inr
      · rintro (h | h)
        · subst h; exact absurd hb hpid
        · exact h
    · rw [if_neg hb]
      simp only [List.map_cons, List.mem_cons]
      by_cases heq : pid = b.place_id
      · simp [heq]
      · have hpid' : pid ∉ b.place_id :: seen := by
          intro h
          rcases List.mem_cons.mp h with h | h
          · exact heq h
          · exact hpid h
        rw [ih _ pid hpid']

lemma ddb_find (l : List Business) :
    ∀ (seen : List (Option String)) (pid : Option String), pid ∉ seen →
      (dropDuplicatesBy seen l).find? (fun b => decide (b.place_id = pid)) =
        l.find? (fun b => decide (b.place_id = pid)) := by
  induction l with
  | nil => intro seen pid _; simp [dropDuplicatesBy]
  | cons b rest ih =>
    intro seen pid hpid
    simp only [dropDuplicatesBy]
    by_cases hb : b.place_id ∈ seen
    · have hne : b.place_id ≠ pid := fun h => hpid (h ▸ hb)
      rw [if_pos hb, ih seen pid hpid,
        List.find?_cons_of_neg _ (by simp [hne])]
    · rw [if_neg hb]
      by_cases heq : b.place_id = pid
      · rw [List.find?_cons_of_pos _ (by simp [heq]),
          List.find?_cons_of_pos _ (by simp [heq])]
      · have hpid' : pid ∉ b.place_id :: seen := by
          intro h
          rcases List.mem_cons.mp h with h | h
          · exact heq h.symm
          · exact hpid h
        rw [List.find?_cons_of_neg _ (by simp [heq]),
          List.find?_cons_of_neg _ (by simp [heq])]
        exact ih _ pid hpid'

/-- C3: deduplication keeps exactly one record per distinct `place_id` in
the output (the surviving identifiers are exactly the collected ones and
appear without repetition), the survivor for each identifier is the
first-encountered record with that identifier, and `main` applies this
dedup in one pass to the fully collected record list, before id assignment
and the override merge. -/
theorem dedup_spec :
    (∀ records : List Business,
      ((dedupByPlaceId records).map (fun b => b.place_id)).Nodup) ∧
    (∀ (records : List Business) (pid : Option String),
      pid ∈ (dedupByPlaceId records).map (fun b => b.place_id) ↔
        pid ∈ records.map (fun b => b.place_id)) ∧
    (∀ (records : List Business) (pid : Option String),
      (dedupByPlaceId records).find? (fun b => decide (b.place_id = pid)) =
        records.find? (fun b => decide (b.place_id = pid))) ∧
    (∀ (env : MainEnv) (records : List Business),
      env.api_key.getD "" ≠ "" → env.locations ≠ [] →
      collectRecords env = Except.ok records → records ≠ [] →
      main env = Except.ok
        { timestampWritten := true,
          csv := some (applyOverrides (assignIds (dedupByPlaceId records))
            (env.locklist.getD [])) }) := by
  refine ⟨fun records => ddb_nodup records [],
    fun records pid => ddb_mem_iff records [] pid (by simp),
    fun records pid => ddb_find records [] pid (by simp), ?_⟩
  intro env records hkey hloc hcollect hne
  unfold main
  rw [if_neg hkey, if_neg (by simpa [List.isEmpty_iff] using hloc), hcollect]
  simp [List.isEmpty_iff, hne]

/-- A concrete details response used by the witnesses. -/
def sampleDetails : Details :=
  { place_id := some "p1", name := some "Aura Spa", lat := none, lng := none,
    website := none, international_phone_number := none, types := ["spa"],
    address_components := [], reviews := none }

/-- The record `buildBusiness` assembles from `sampleDetails`. -/
def sampleBusiness : Business :=
  { place_id := some "p1", name := some "Aura Spa",
    category := "Health & Wellbeing", city := "", country := "",
    latitude := none, longitude := none, website := "", phone := "",
    email := "", social := "", description := "", verified := false }

/-- A concrete normal-operation environment used by the witnesses. -/
def sampleEnv : MainEnv :=
  { api_key := some "k", locations := ["Loc"],
    placesFor := fun _ => [{ place_id := some "p1" }],
    detailsFor := fun pid => if pid = some "p1" then some sampleDetails
      else none,
    locklist := none }

/-- C3 witness: on the concrete one-place environment, `main` produces the
dedup-then-ids-then-overrides composition of the collected records. -/
theorem dedup_spec_witness :
    main sampleEnv = Except.ok
      { timestampWritten := true,
        csv := some (applyOverrides (assignIds (dedupByPlaceId
          [sampleBusiness])) (sampleEnv.locklist.getD [])) } :=
  dedup_spec.2.2.2 sampleEnv [sampleBusiness] (by decide) (by decide)
    (by rfl) (by decide)

/-- C8: every business record the fetch pipeline assembles has an empty
email and an empty social field; no source data populates them. -/
theorem email_social_always_empty :
    ∀ (details : Details) (b : Business),
      buildBusiness details = Except.ok b →
      b.email = "" ∧ b.social = "" := by
  intro details b h
  unfold buildBusiness at h
  split at h
  · exact absurd h (by simp)
  · cases h
    exact ⟨rfl, rfl⟩

/-- C8 witness: the record assembled from the concrete details response
has empty email and social fields. -/
theorem email_social_always_empty_witness :
    sampleBusiness.email = "" ∧ sampleBusiness.social = "" :=
  email_social_always_empty sampleDetails sampleBusiness (by rfl)

/-- C2: the override merge.  (1) A locklist row for identifier `X` whose
only populated cell is `verified=true` flips exactly the `verified` field
of the rows with identifier `X` and changes nothing else; (2) any
populated override cell overwrites the corresponding field of the joined
row; (3) rows matched by no locklist row are all unchanged; (4) a locklist
row matching no record has no effect on the output. -/
theorem override_merge_spec :
    (∀ (rows : List IdRecord) (X : String),
      applyOverrides rows [{ place_id := X, verified := some true }] =
        rows.map (fun row =>
          if row.business.place_id = some X then
            { row with business := { row.business with verified := true } }
          else row)) ∧
    (∀ (row : IdRecord) (o : Override),
      (∀ v, o.id = some v → (applyOverride row o).id = v) ∧
      (applyOverride row o).business.place_id = row.business.place_id ∧
      (∀ v, o.name = some v →
        (applyOverride row o).business.name = some v) ∧
      (∀ v, o.category = some v →
        (applyOverride row o).business.category = v) ∧
      (∀ v, o.city = some v → (applyOverride row o).business.city = v) ∧
      (∀ v, o.country = some v →
        (applyOverride row o).business.country = v) ∧
      (∀ v, o.latitude = some v →
        (applyOverride row o).business.latitude = some v) ∧
      (∀ v, o.longitude = some v →
        (applyOverride row o).business.longitude = some v) ∧
      (∀ v, o.website = some v →
        (applyOverride row o).business.website = v) ∧
      (∀ v, o.email = some v → (applyOverride row o).business.email = v) ∧
      (∀ v, o.phone = some v → (applyOverride row o).business.phone = v) ∧
      (∀ v, o.social = some v →
        (applyOverride row o).business.social = v) ∧
      (∀ v, o.description = some v →
        (applyOverride row o).business.description = v) ∧
      (∀ v, o.verified = some v →
        (applyOverride row o).business.verified = v)) ∧
    (∀ (rows : List IdRecord) (locklist : List Override),
      (∀ row ∈ rows, ∀ o ∈ locklist,
        some o.place_id ≠ row.business.place_id) →
      applyOverrides rows locklist = rows) ∧
    (∀ (rows : List IdRecord) (locklist : List Override) (o : Override),
      (∀ row ∈ rows, some o.place_id ≠ row.business.place_id) →
      applyOverrides rows (o :: locklist) = applyOverrides rows locklist) := by
  refine ⟨?_, ?_, ?_, ?_⟩
  · intro rows X
    unfold applyOverrides
    apply List.map_congr_left
    intro row _
    by_cases hc : row.business.place_id = some X
    · rw [List.find?_cons_of_pos _ (by simp [hc])]
      simp [applyOverride, overrideVal, overrideOpt, hc]
    · rw [List.find?_cons_of_neg _
        (by simp; exact fun h => hc h.symm)]
      simp [hc]
  · intro row o
    exact ⟨fun v h => by simp [applyOverride, overrideVal, h],
      rfl,
      fun v h => by simp [applyOverride, overrideOpt, h],
      fun v h => by simp [applyOverride, overrideVal, h],
      fun v h => by simp [applyOverride, overrideVal, h],
      fun v h => by simp [applyOverride, overrideVal, h],
      fun v h => by simp [applyOverride, overrideOpt, h],
      fun v h => by simp [applyOverride, overrideOpt, h],
      fun v h => by simp [applyOverride, overrideVal, h],
      fun v h => by simp [applyOverride, overrideVal, h],
      fun v h => by simp [applyOverride, overrideVal, h],
      fun v h => by simp [applyOverride, overrideVal, h],
      fun v h => by simp [applyOverride, overrideVal, h],
      fun v h => by simp [applyOverride, overrideVal, h]⟩
  · intro rows locklist h
    unfold applyOverrides
    conv_rhs => rw [← List.map_id rows]
    apply List.map_congr_left
    intro row hrow
    rw [List.find?_eq_none.mpr
      (fun o ho => by simpa using h row hrow o ho)]
    rfl
  · intro rows locklist o h
    unfold applyOverrides
    apply List.map_congr_left
    intro row hrow
    rw [List.find?_cons_of_neg _ (by simpa using h row hrow)]

/-- C2 witness: a concrete one-row table and a verified-only locklist row
for its identifier flip exactly the verified flag. -/
theorem override_merge_spec_witness :
    applyOverrides [{ id := 1, business := sampleBusiness }]
        [{ place_id := "p1", verified := some true }] =
      [{ id := 1, business := { sampleBusiness with verified := true } }] := by
  rw [override_merge_spec.1 [{ id := 1, business := sampleBusiness }] "p1"]
  decide

/-- A concrete environment whose key is unset. -/
def envNoKey : MainEnv :=
  { api_key := none, locations := ["Loc"], placesFor := fun _ => [],
    detailsFor := fun _ => none, locklist := none }

/-- A concrete environment whose location list is empty. -/
def envNoLocations : MainEnv :=
  { api_key := some "k", locations := [], placesFor := fun _ => [],
    detailsFor := fun _ => none, locklist := none }

/-- A concrete environment whose searches find nothing. -/
def envNoData : MainEnv :=
  { api_key := some "k", locations := ["Loc"], placesFor := fun _ => [],
    detailsFor := fun _ => none, locklist := none }

/-- C7: the completion timestamp is written on the normal-completion path
and on the no-data early exit, but neither on the missing-credentials exit
nor on the empty-location-list exit. -/
theorem run_marker_spec :
    (∀ env : MainEnv, env.api_key.getD "" = "" →
      main env = Except.ok { timestampWritten := false, csv := none }) ∧
    (∀ env : MainEnv, env.locations = [] →
      main env = Except.ok { timestampWritten := false, csv := none }) ∧
    (∀ env : MainEnv, env.api_key.getD "" ≠ "" → env.locations ≠ [] →
      collectRecords env = Except.ok [] →
      main env = Except.ok { timestampWritten := true, csv := none }) ∧
    (∀ (env : MainEnv) (records : List Business),
      env.api_key.getD "" ≠ "" → env.locations ≠ [] →
      collectRecords env = Except.ok records → records ≠ [] →
      (main env).map (fun res => res.timestampWritten) =
        Except.ok true) := by
  refine ⟨?_, ?_, ?_, ?_⟩
  · intro env h
    unfold main
    rw [if_pos h]
  · intro env h
    unfold main
    by_cases hk : env.api_key.getD "" = ""
    · rw [if_pos hk]
    · rw [if_neg hk, if_pos (by simp [h])]
  · intro env hk hl hc
    unfold main
    rw [if_neg hk, if_neg (by simpa [List.isEmpty_iff] using hl), hc]
    rfl
  · intro env records hk hl hc hne
    unfold main
    rw [if_neg hk, if_neg (by simpa [List.isEmpty_iff] using hl), hc]
    simp [List.isEmpty_iff, hne]
    rfl

/-- C7 witness: the four paths at concrete environments. -/
theorem run_marker_spec_witness :
    main envNoKey = Except.ok { timestampWritten := false, csv := none } ∧
    main envNoLocations =
      Except.ok { timestampWritten := false, csv := none } ∧
    main envNoData = Except.ok { timestampWritten := true, csv := none } ∧
    (main sampleEnv).map (fun res => res.timestampWritten) =
      Except.ok true :=
  ⟨run_marker_spec.1 envNoKey (by decide),
   run_marker_spec.2.1 envNoLocations (by decide),
   run_marker_spec.2.2.1 envNoData (by decide) (by decide) (by rfl),
   run_marker_spec.2.2.2 sampleEnv [sampleBusiness] (by decide) (by decide)
     (by rfl) (by decide)⟩

/-- A concrete details response whose `reviews` key is present but holds
an empty list. -/
def emptyReviewsDetails : Details :=
  { place_id := some "p2", name := some "X", lat := none, lng := none,
    website := none, international_phone_number := none, types := [],
    address_components := [], reviews := some [] }

/-- A concrete environment that serves `emptyReviewsDetails`. -/
def emptyReviewsEnv : MainEnv :=
  { api_key := some "k", locations := ["Loc"],
    placesFor := fun _ => [{ place_id := some "p2" }],
    detailsFor := fun _ => some emptyReviewsDetails,
    locklist := none }

/-- C6 (code bug): review extraction handles an absent `reviews` key (the
`[ {} ]` default, first conjunct) but raises `IndexError` when the key is
present with an empty list, and that exception escapes `main` — so a
response whose details contain an empty reviews list does not complete
without raising. -/
theorem empty_reviews_raises :
    firstReviewText none = some "" ∧
    firstReviewText (some []) = none ∧
    buildBusiness emptyReviewsDetails =
      Except.error "IndexError: list index out of range" ∧
    main emptyReviewsEnv =
      Except.error "IndexError: list index out of range" :=
  ⟨rfl, rfl, rfl, rfl⟩

lemma applyOverrides_id_map (rows : List IdRecord)
    (locklist : List Override) (h : ∀ o ∈ locklist, o.id = none) :
    (applyOverrides rows locklist).map (fun row => row.id) =
      rows.map (fun row => row.id) := by
  unfold applyOverrides
  rw [List.map_map]
  apply List.map_congr_left
  intro row _
  simp only [Function.comp]
  cases hf : locklist.find?
      (fun o => decide (some o.place_id = row.business.place_id)) with
  | none => rfl
  | some o =>
    have ho := h o (List.mem_of_find?_eq_some hf)
    simp [applyOverride, overrideVal, ho]

lemma assignIds_map_id (records : List Business) :
    (assignIds records).map (fun row => row.id) =
      List.range' 1 records.length := by
  unfold assignIds
  rw [List.map_map]
  have hcomp : ((fun row : IdRecord => row.id) ∘
      fun p : Nat × Business => { id := p.1 + 1, business := p.2 }) =
      ((fun i => i + 1) ∘ Prod.fst) := rfl
  rw [hcomp, ← List.map_map, List.enum_map_fst,
    List.range'_eq_map_range]
  simp [Nat.add_comm]

/-- A locklist row that overrides the sequential id column. -/
def cexOverride : Override := { place_id := "p1", id := some 99 }

/-- A concrete environment whose locklist overrides the id column. -/
def cexEnv : MainEnv :=
  { api_key := some "k", locations := ["Loc"],
    placesFor := fun _ => [{ place_id := some "p1" }],
    detailsFor := fun pid => if pid = some "p1" then some sampleDetails
      else none,
    locklist := some [cexOverride] }

/-- C4 counterexample: with one collected record and a locklist row that
sets `id=99` for its identifier, the final output ids are `[99]`, not
`1..N = [1]` — the override merge runs after id assignment and rewrites
the id column. -/
theorem sequential_ids_counterexample :
    (main cexEnv).map (fun res =>
      res.csv.map (fun rows => rows.map (fun row => row.id))) =
      Except.ok (some [99]) ∧
    ¬ ([99] : List Nat) = List.range' 1 1 :=
  ⟨rfl, by decide⟩

/-- C4 (amended): immediately after post-dedup assignment the ids are
exactly `1..N` in row order, and they still are in the final output
whenever no locklist row populates the id column. -/
theorem sequential_ids_spec :
    (∀ records : List Business,
      (assignIds records).map (fun row => row.id) =
        List.range' 1 records.length) ∧
    (∀ (records : List Business) (locklist : List Override),
      (∀ o ∈ locklist, o.id = none) →
      (applyOverrides (assignIds records) locklist).map
          (fun row => row.id) =
        List.range' 1 records.length) :=
  ⟨assignIds_map_id,
   fun records locklist h => by
    rw [applyOverrides_id_map _ _ h, assignIds_map_id records]⟩

/-- C4 witness: one record and a locklist row that does not touch the id
column give final ids `[1]`. -/
theorem sequential_ids_spec_witness :
    (applyOverrides (assignIds [sampleBusiness])
        [{ place_id := "p1", verified := some true }]).map
        (fun row => row.id) =
      List.range' 1 1 :=
  sequential_ids_spec.2 [sampleBusiness]
    [{ place_id := "p1", verified := some true }] (by decide)

end AuraAffinity
